import Mathlib

/-!
Shallow embedding of `internal/gabychat/main.go`: an interactive session loop
between a human operator and an LLM backend.  The loop owns a growing
transcript (`history`), seeded with a fixed instruction prompt and a fixed
acknowledgment, and repeatedly: prints a prompt cue on the diagnostic stream,
reads the input stream to exhaustion (`io.ReadAll`), trims the read,
either terminates (zero-byte read), re-prompts (whitespace-only read),
or appends the trimmed operator turn, calls the backend on the whole
transcript, prints the reply (with trailing newlines stripped) on the primary
output stream, and appends the untrimmed reply.

Modelling conventions:
* a session is driven by a list of read results (each `io.ReadAll` call either
  yields a chunk of bytes, modelled as a `String` of valid text, or fails);
* the backend (`ai.Chat`) is a pure function from the transcript to
  `Except String String` (deterministic, stateless, as the spec requires);
* the two output streams are accumulated as `String`s;
* `log.Fatal e` exits with status 1 after writing the error message and a
  newline on the diagnostic stream (the standard logger's date/time prefix is
  fixed-format metadata and is not modelled);
* process exit codes: `0` on a clean break out of the loop, `1` via
  `log.Fatal`.
-/

namespace Gabychat

/-- Go `unicode.IsSpace`: membership in the Unicode White_Space property,
exactly the set used by `strings.TrimSpace`. -/
def goIsSpace (c : Char) : Bool :=
  let n := c.toNat
  (decide (9 ≤ n) && decide (n ≤ 13)) || decide (n = 32) ||
  decide (n = 0x85) || decide (n = 0xA0) || decide (n = 0x1680) ||
  (decide (0x2000 ≤ n) && decide (n ≤ 0x200A)) ||
  decide (n = 0x2028) || decide (n = 0x2029) ||
  decide (n = 0x202F) || decide (n = 0x205F) || decide (n = 0x3000)

/-- Go `strings.TrimSpace s`: remove the maximal run of White_Space characters
from both ends of `s`. -/
def goTrimSpace (s : String) : String :=
  ⟨((s.data.dropWhile goIsSpace).reverse.dropWhile goIsSpace).reverse⟩

/-- Go `strings.TrimRight(s, "\n")`: remove the maximal run of `'\n'`
characters from the right end of `s` (and nothing else). -/
def goTrimRightNl (s : String) : String :=
  ⟨(s.data.reverse.dropWhile (fun c => c == '\n')).reverse⟩

/-- Lower-case hexadecimal digit, as used by Go's quoting escapes. -/
def hexDigit (n : Nat) : Char :=
  if n < 10 then Char.ofNat (48 + n) else Char.ofNat (87 + n)

/-- The `w` low-order hexadecimal digits of `n`, most significant first. -/
def hexDigits : Nat → Nat → List Char
  | 0, _ => []
  | w + 1, n => hexDigits w (n / 16) ++ [hexDigit (n % 16)]

/-- Quoting of one character, following Go's `strconv.Quote` escaping rules:
`"` and `\` are backslash-escaped, the control characters U+0007..U+000D get
their letter escapes, other printable ASCII is kept verbatim, remaining ASCII
gets `\xhh`, and all other characters get `\uhhhh` / `\Uhhhhhhhh`.  (Go keeps
printable non-ASCII runes verbatim; this model escapes them, which agrees with
Go on every character this program ever quotes: the program only quotes
whitespace-only reads, and every non-ASCII White_Space rune is non-printable,
so Go escapes it too.) -/
def quoteChar (c : Char) : List Char :=
  let n := c.toNat
  if n = 34 then ['\\', '"']
  else if n = 92 then ['\\', '\\']
  else if n = 7 then ['\\', 'a']
  else if n = 8 then ['\\', 'b']
  else if n = 9 then ['\\', 't']
  else if n = 10 then ['\\', 'n']
  else if n = 11 then ['\\', 'v']
  else if n = 12 then ['\\', 'f']
  else if n = 13 then ['\\', 'r']
  else if decide (32 ≤ n) && decide (n ≤ 126) then [c]
  else if n < 128 then '\\' :: 'x' :: hexDigits 2 n
  else if n < 65536 then '\\' :: 'u' :: hexDigits 4 n
  else '\\' :: 'U' :: hexDigits 8 n

/-- Go `fmt.Sprintf("%q", data)` on a chunk of (valid-text) input bytes:
a double-quoted Go string literal whose body escapes each character by
`quoteChar`. -/
def goQuote (s : String) : String :=
  ⟨'"' :: (s.data.map quoteChar).flatten ++ ['"']⟩

/-- Models the diagnostic-stream write performed by `log.Fatal(err)`: the
standard logger prints the error message followed by a newline on `os.Stderr`
(its date/time prefix is fixed-format metadata, not modelled), then the
process exits with status 1. -/
def fatalLog (e : String) : String := e ++ "\n"

/-- The fixed instruction text of `internal/gabychat/main.go`, the Go `prompt`
constant, given line by line: the Go source spells it as one raw backquoted
literal, whose content is exactly these lines joined by newlines (the first
and last elements are empty because the raw literal starts and ends with a
newline).  Braces and apostrophes appear as `\x7b`, `\x7d`, `\x27` escapes,
tabs as `\t`. -/
def promptLines : List String :=
  ["",
   "You are a robot who is helping with an open-source project issue tracker.",
   "When a contributor asks you commands, they appear here prefixed with <request>.",
   "You can respond directly to the contributor",
   "by starting a response with <response>.",
   "",
   "Before responding to the contributor, you can invoke Go code or write new",
   "Go functions by prefixing that code with <go run> and ending it with </go run>, like this:",
   "",
   "<go run>",
   "fmt.Println(strings.Repeat(\"hi \", 3))",
   "</go run>",
   "",
   "The next message will be the result of running the code, prefixed by <go output> and",
   "ending in </go output>, like this:",
   "",
   "<go output>",
   "hi hi hi",
   "</go output>",
   "",
   "If the <go run> code does not compile or has a type error or fails when run,",
   "the next message will instead be a <go error> message explaining the problem. For example:",
   "",
   "<go run>",
   "fmt.Println(strings.Repeat(\"hi \", 3)",
   "</go run>",
   "",
   "is missing a final closing parenthesis and would respond:",
   "",
   "<go error>",
   "code.go:1:38: syntax error: unexpected newline in argument list; possibly missing comma or )",
   "</go error>",
   "",
   "If you get a go error, you can try to fix it in another <go run>.",
   "After three attempts, stop and let the contributor know that you",
   "cannot help them with that request.",
   "",
   "When running Go code, the following types and functions are automatically defined",
   "in another file in the package and do not need to be repeated in the code you write.",
   "",
   "The contributor may send a followup request based on your response.",
   "Continue the conversation, invoking Go code as needed.",
   "",
   "First there is a type Issue that represents a single issue in the issue tracker:",
   "",
   "\t// An Issue represents a GitHub issue on the issue tracker.",
   "\ttype Issue struct \x7b",
   "\t\tTitle string // issue title",
   "\t\tBody string // issue body text",
   "\t\tAuthor string // GitHub login of author who filed issue",
   "\t\x7d",
   "",
   "The Issue type also has the following methods:",
   "",
   "\t// AddLabel adds the label with the given labelName to the issue.",
   "\tfunc (issue *Issue) AddLabel(labelName string)",
   "",
   "\t// RemoveLabel removes the label with the given labelName from the issue.",
   "\tfunc (issue *Issue) AddLabel(labelName string)",
   "",
   "\t// SetTitle sets the issue title to newIssueTitle.",
   "\tfunc (issue *Issue) SetTitle(newIssueTitle string)",
   "",
   "\t// IsNearlyIdentical reports whether the issue is nearly identical to",
   "\t// the issue with the given number.",
   "\tfunc (issue *Issue) IsNearlyIdentical(number int) bool",
   "",
   "\t// CloseAsDuplicate closes the issue as a duplicate of",
   "\t// the issue with the given number.",
   "\tfunc (issue *Issue) CloseAsDuplicate(number int) bool",
   "",
   "As part of interacting with Go contributors working in the issue tracker,",
   "you can define new Go functions that run on every issue to perform",
   "triage operations. Each function should take a single argument \"issue *Issue\"",
   "and then look at the issue and apply any required changes.",
   "Register the function by calling:",
   "",
   "\tfunc RegisterIssueTriage(name string, f func(*Issue), desc string)",
   "",
   "Remove a function by calling:",
   "",
   "\tfunc DeleteIssueTriage(name string)",
   "",
   "There is also a function ListIssueTriage that returns a JSON array of",
   "the registered issue triager functions. Each array element has two keys Name and Desc.",
   "",
   "\tfunc ListIssueTriage() string",
   "",
   "For JSON outputs like that, it is best to present them to the user as Markdown tables.",
   "",
   "For example, here is a conversation involving defining a new function definition:",
   "",
   "<request>",
   "Please add a gopls label to all issues with a title that starts with x/tools.",
   "</request>",
   "",
   "<go run>",
   "func addGoplsLabel(issue *Issue) \x7b",
   "\tif strings.HasPrefix(issue.Title, \"x/tools\") \x7b",
   "\t\tissue.AddLabel(\"gopls\")",
   "\t\x7d",
   "\x7d",
   "",
   "func main() \x7b",
   "\tRegisterIssueTriage(\"addGoplsLabel\", addGoplsLabel, \"add a gopls label to all issues with a title that starts with x/tools\")",
   "\x7d",
   "</go run>",
   "",
   "<go output>",
   "added addGoplsLabel",
   "</go output>",
   "",
   "<response>",
   "I\x27ve added a new triage function addGoplsLabel, defined as:",
   "",
   "\tfunc addGoplsLabel(issue *Issue) \x7b",
   "\t\tif strings.HasPrefix(issue.Title, \"x/tools\") \x7b",
   "\t\t\tissue.AddLabel(\"gopls\")",
   "\t\t\x7d",
   "\t\x7d",
   "</response>",
   "",
   "<request>",
   "I was wrong, we should only add that label when the prefix is x/tools/gopls. Can you fix that?",
   "</request>",
   "",
   "<go run>",
   "func addGoplsLabel(issue *Issue) \x7b",
   "\tif strings.HasPrefix(issue.Title, \"x/tools/gopls\") \x7b",
   "\t\tissue.AddLabel(\"gopls\")",
   "\t\x7d",
   "\x7d",
   "",
   "func main() \x7b",
   "\tRegisterIssueTriage(\"addGoplsLabel\", addGoplsLabel, \"add a gopls label to all issues with a title that starts with x/tools/gopls\")",
   "\x7d",
   "</go run>",
   "",
   "<go output>",
   "redefined addGoplsLabel",
   "</go output>",
   "",
   "<response>",
   "Successfully replaced addGoplsLabel.",
   "</response>",
   "",
   "<request>",
   "Can you please also label issues written in Pig Latin with the \"pig-latin\" label?",
   "</request>",
   "",
   "<response>",
   "I\x27m sorry, but that\x27s not something I can do during issue triage.",
   "</response>",
   "",
   "Now it\x27s time for a real interaction with an actual contributor.",
   ""]

/-- The fixed instruction text: the Go `prompt` constant itself. -/
def prompt : String := String.intercalate "\n" promptLines

/-- The fixed acknowledgment turn seeded into the transcript right after
`prompt`. -/
def ack : String := "Understood. Ready to go."

/-- Result of one `io.ReadAll(os.Stdin)` call: a chunk of bytes, or a read
error. -/
inductive ReadRes where
  | ok (data : String)
  | fail (err : String)

/-- The externally observable session state: the transcript (`history` in the
Go source), the primary output stream (`os.Stdout`), and the diagnostic
stream (`os.Stderr`). -/
structure SessionState where
  history : List String
  output : String
  errout : String
deriving DecidableEq, Repr

/-- How a run of the loop ends: the process exits with a code, or the supplied
list of read results is exhausted while the loop is still awaiting input. -/
inductive Outcome (σ : Type) where
  | exited (code : Nat) (final : σ)
  | awaiting (st : σ)
deriving DecidableEq, Repr

/-- The state carried by an outcome. -/
def Outcome.state {σ : Type} : Outcome σ → σ
  | .exited _ s => s
  | .awaiting s => s

/-- The session loop of `main` (lines 194–216 of the Go source), driven by
the list of read results.  Each iteration: emit the `"<user> "` cue on the
diagnostic stream; a failed read is fatal; a zero-byte read breaks out of the
loop (exit 0); a read that trims to empty echoes the quoted raw bytes on the
diagnostic stream and restarts; otherwise the trimmed turn is appended, the
backend is called on the whole transcript (a backend error is fatal), the
reply is printed framed on the primary output stream with trailing newlines
stripped, and the untrimmed reply is appended. -/
def runLoop (chat : List String → Except String String) :
    List ReadRes → SessionState → Outcome SessionState
  | [], st => .awaiting st
  | r :: rs, st =>
    let st1 : SessionState := { st with errout := st.errout ++ "<user> " }
    match r with
    | .fail e => .exited 1 { st1 with errout := st1.errout ++ fatalLog e }
    | .ok data =>
      if data = "" then .exited 0 st1
      else
        let s := goTrimSpace data
        if s = "" then
          runLoop chat rs { st1 with errout := st1.errout ++ goQuote data ++ "\n" }
        else
          let h2 := st1.history ++ [s]
          match chat h2 with
          | .error e =>
            .exited 1 { st1 with history := h2, errout := st1.errout ++ fatalLog e }
          | .ok next =>
            let st2 : SessionState :=
              { history := h2 ++ [next],
                output := st1.output ++ "\n<model> " ++ goTrimRightNl next ++ "\n\n",
                errout := st1.errout }
            runLoop chat rs st2

/-- The initial session state: transcript primed with `[prompt, ack]`, both
streams empty (lines 190–193 of the Go source). -/
def initState : SessionState := ⟨[prompt, ack], "", ""⟩

/-- The whole of `main` after flag parsing: constructing the backend client
(`gemini.NewClient`) may fail, which is fatal before the loop is entered;
otherwise the primed loop runs. -/
def gabyMain (client : Except String (List String → Except String String))
    (reads : List ReadRes) : Outcome SessionState :=
  match client with
  | .error e => .exited 1 ⟨[], "", fatalLog e⟩
  | .ok chat => runLoop chat reads initState

/-- Who authored a transcript turn.  The priming pair is tagged
operator/backend, matching the user/model role alternation the Gemini chat
API assigns to the history. -/
inductive Author where
  | operator
  | backend
deriving DecidableEq, Repr

/-- Ghost-instrumented session state: like `SessionState`, but each transcript
entry is tagged with its author, and the number of backend calls made so far
is recorded. -/
structure GhostState where
  history : List (Author × String)
  output : String
  errout : String
  calls : Nat
deriving DecidableEq, Repr

/-- Forget the ghost authorship tags of a tagged transcript. -/
def eraseAuthors (h : List (Author × String)) : List String := h.map Prod.snd

/-- Forget the ghost fields of a `GhostState`. -/
def projState (g : GhostState) : SessionState :=
  ⟨eraseAuthors g.history, g.output, g.errout⟩

/-- Forget the ghost fields of an outcome. -/
def projOutcome : Outcome GhostState → Outcome SessionState
  | .exited c g => .exited c (projState g)
  | .awaiting g => .awaiting (projState g)

/-- The session loop again, with ghost instrumentation only: identical control
flow and writes to `runLoop`, but each appended turn carries its author and
each backend invocation bumps `calls`. -/
def runLoopG (chat : List String → Except String String) :
    List ReadRes → GhostState → Outcome GhostState
  | [], st => .awaiting st
  | r :: rs, st =>
    let st1 : GhostState := { st with errout := st.errout ++ "<user> " }
    match r with
    | .fail e => .exited 1 { st1 with errout := st1.errout ++ fatalLog e }
    | .ok data =>
      if data = "" then .exited 0 st1
      else
        let s := goTrimSpace data
        if s = "" then
          runLoopG chat rs { st1 with errout := st1.errout ++ goQuote data ++ "\n" }
        else
          let h2 := st1.history ++ [(Author.operator, s)]
          match chat (eraseAuthors h2) with
          | .error e =>
            let st2 : GhostState :=
              { st1 with history := h2, calls := st1.calls + 1,
                         errout := st1.errout ++ fatalLog e }
            .exited 1 st2
          | .ok next =>
            let st2 : GhostState :=
              { history := h2 ++ [(Author.backend, next)],
                output := st1.output ++ "\n<model> " ++ goTrimRightNl next ++ "\n\n",
                errout := st1.errout,
                calls := st1.calls + 1 }
            runLoopG chat rs st2

/-- The initial ghost state matching `initState`. -/
def initG : GhostState := ⟨[(Author.operator, prompt), (Author.backend, ack)], "", "", 0⟩

/-- Whether `pat` is a prefix of `s` (character lists). -/
def startsWithL : List Char → List Char → Bool
  | [], _ => true
  | _ :: _, [] => false
  | p :: ps, c :: cs => p == c && startsWithL ps cs

/-- Number of positions of `s` at which `pat` occurs as a substring. -/
def countOcc (pat : List Char) : List Char → Nat
  | [] => if startsWithL pat [] then 1 else 0
  | c :: cs => (if startsWithL pat (c :: cs) then 1 else 0) + countOcc pat cs

/-! Unfolding equations for the two loops, one per branch of an iteration. -/

lemma runLoop_nil (chat) (st : SessionState) : runLoop chat [] st = .awaiting st := rfl

lemma runLoop_fail (chat) (e : String) (rs) (st : SessionState) :
    runLoop chat (ReadRes.fail e :: rs) st =
      .exited 1 ⟨st.history, st.output, st.errout ++ "<user> " ++ fatalLog e⟩ := rfl

lemma runLoop_eof (chat) (rs) (st : SessionState) :
    runLoop chat (ReadRes.ok "" :: rs) st =
      .exited 0 ⟨st.history, st.output, st.errout ++ "<user> "⟩ := rfl

lemma runLoop_blank (chat) (rs) (st : SessionState) (data : String)
    (h1 : data ≠ "") (h2 : goTrimSpace data = "") :
    runLoop chat (ReadRes.ok data :: rs) st =
      runLoop chat rs ⟨st.history, st.output, st.errout ++ "<user> " ++ goQuote data ++ "\n"⟩ := by
  simp only [runLoop]
  rw [if_neg h1, if_pos h2]

lemma runLoop_chat_err (chat) (rs) (st : SessionState) (data e : String)
    (h1 : data ≠ "") (h2 : goTrimSpace data ≠ "")
    (h3 : chat (st.history ++ [goTrimSpace data]) = Except.error e) :
    runLoop chat (ReadRes.ok data :: rs) st =
      .exited 1 ⟨st.history ++ [goTrimSpace data], st.output,
                 st.errout ++ "<user> " ++ fatalLog e⟩ := by
  simp only [runLoop]
  rw [if_neg h1, if_neg h2, h3]

lemma runLoop_chat_ok (chat) (rs) (st : SessionState) (data next : String)
    (h1 : data ≠ "") (h2 : goTrimSpace data ≠ "")
    (h3 : chat (st.history ++ [goTrimSpace data]) = Except.ok next) :
    runLoop chat (ReadRes.ok data :: rs) st =
      runLoop chat rs ⟨st.history ++ [goTrimSpace data] ++ [next],
        st.output ++ "\n<model> " ++ goTrimRightNl next ++ "\n\n",
        st.errout ++ "<user> "⟩ := by
  simp only [runLoop]
  rw [if_neg h1, if_neg h2, h3]

lemma eraseAuthors_append (h1 h2 : List (Author × String)) :
    eraseAuthors (h1 ++ h2) = eraseAuthors h1 ++ eraseAuthors h2 :=
  List.map_append _ _ _

lemma runLoopG_nil (chat) (st : GhostState) : runLoopG chat [] st = .awaiting st := rfl

lemma runLoopG_fail (chat) (e : String) (rs) (st : GhostState) :
    runLoopG chat (ReadRes.fail e :: rs) st =
      .exited 1 ⟨st.history, st.output, st.errout ++ "<user> " ++ fatalLog e, st.calls⟩ := rfl

lemma runLoopG_eof (chat) (rs) (st : GhostState) :
    runLoopG chat (ReadRes.ok "" :: rs) st =
      .exited 0 ⟨st.history, st.output, st.errout ++ "<user> ", st.calls⟩ := rfl

lemma runLoopG_blank (chat) (rs) (st : GhostState) (data : String)
    (h1 : data ≠ "") (h2 : goTrimSpace data = "") :
    runLoopG chat (ReadRes.ok data :: rs) st =
      runLoopG chat rs ⟨st.history, st.output,
        st.errout ++ "<user> " ++ goQuote data ++ "\n", st.calls⟩ := by
  simp only [runLoopG]
  rw [if_neg h1, if_pos h2]

lemma runLoopG_chat_err (chat) (rs) (st : GhostState) (data e : String)
    (h1 : data ≠ "") (h2 : goTrimSpace data ≠ "")
    (h3 : chat (eraseAuthors st.history ++ [goTrimSpace data]) = Except.error e) :
    runLoopG chat (ReadRes.ok data :: rs) st =
      .exited 1 ⟨st.history ++ [(Author.operator, goTrimSpace data)], st.output,
                 st.errout ++ "<user> " ++ fatalLog e, st.calls + 1⟩ := by
  simp only [runLoopG]
  rw [if_neg h1, if_neg h2, eraseAuthors_append,
      show eraseAuthors [(Author.operator, goTrimSpace data)] = [goTrimSpace data] from rfl, h3]

lemma runLoopG_chat_ok (chat) (rs) (st : GhostState) (data next : String)
    (h1 : data ≠ "") (h2 : goTrimSpace data ≠ "")
    (h3 : chat (eraseAuthors st.history ++ [goTrimSpace data]) = Except.ok next) :
    runLoopG chat (ReadRes.ok data :: rs) st =
      runLoopG chat rs ⟨st.history ++ [(Author.operator, goTrimSpace data)]
          ++ [(Author.backend, next)],
        st.output ++ "\n<model> " ++ goTrimRightNl next ++ "\n\n",
        st.errout ++ "<user> ", st.calls + 1⟩ := by
  simp only [runLoopG]
  rw [if_neg h1, if_neg h2, eraseAuthors_append,
      show eraseAuthors [(Author.operator, goTrimSpace data)] = [goTrimSpace data] from rfl, h3]

lemma projOutcome_state (o : Outcome GhostState) :
    (projOutcome o).state = projState o.state := by
  cases o <;> rfl

/-! Projection: the ghost-instrumented loop erases to the plain loop. -/

lemma proj_runLoopG (chat) : ∀ (rs : List ReadRes) (g : GhostState),
    projOutcome (runLoopG chat rs g) = runLoop chat rs (projState g) := by
  intro rs
  induction rs with
  | nil => intro g; rfl
  | cons r rs ih =>
    intro g
    cases r with
    | fail e => rfl
    | ok data =>
      by_cases h1 : data = ""
      · subst h1; rfl
      · by_cases h2 : goTrimSpace data = ""
        · rw [runLoopG_blank chat rs g data h1 h2,
              runLoop_blank chat rs (projState g) data h1 h2]
          exact ih _
        · cases hc : chat (eraseAuthors g.history ++ [goTrimSpace data]) with
          | error e =>
            rw [runLoopG_chat_err chat rs g data e h1 h2 hc,
                runLoop_chat_err chat rs (projState g) data e h1 h2 hc]
            simp [projOutcome, projState, eraseAuthors_append, eraseAuthors]
          | ok next =>
            rw [runLoopG_chat_ok chat rs g data next h1 h2 hc,
                runLoop_chat_ok chat rs (projState g) data next h1 h2 hc]
            rw [ih]
            congr 1
            simp [projState, eraseAuthors_append, eraseAuthors]

/-! Trimming lemmas and the transcript-shape invariant. -/

lemma dropWhile_dropWhile (p : Char → Bool) (l : List Char) :
    (l.dropWhile p).dropWhile p = l.dropWhile p := by
  induction l with
  | nil => rfl
  | cons x t ih =>
    by_cases h : p x
    · rw [List.dropWhile_cons, if_pos h, ih]
    · rw [List.dropWhile_cons, if_neg h, List.dropWhile_cons, if_neg h]

lemma dropWhile_eq_self_of_prefix (p : Char → Bool) {l1 l2 : List Char}
    (hp : l2 <+: l1) (h : l1.dropWhile p = l1) : l2.dropWhile p = l2 := by
  cases l2 with
  | nil => rfl
  | cons x t =>
    obtain ⟨r, hr⟩ := hp
    subst hr
    by_cases hx : p x
    · exfalso
      rw [List.cons_append, List.dropWhile_cons, if_pos hx] at h
      have hle := (List.dropWhile_suffix (l := t ++ r) p).length_le
      rw [h] at hle
      simp at hle
    · rw [List.dropWhile_cons, if_neg hx]

lemma goTrimSpace_idem (s : String) : goTrimSpace (goTrimSpace s) = goTrimSpace s := by
  unfold goTrimSpace
  set p := goIsSpace with hp
  set a := s.data.dropWhile p with ha
  set b := ((a.reverse.dropWhile p).reverse : List Char) with hb
  have hdata : (String.mk b).data = b := rfl
  rw [hdata]
  have hbrev : b.reverse = a.reverse.dropWhile p := by
    rw [hb, List.reverse_reverse]
  have hba : b <+: a := by
    have hsuf : b.reverse <:+ a.reverse := by
      rw [hbrev]; exact List.dropWhile_suffix p
    exact List.reverse_suffix.1 hsuf
  have haa : a.dropWhile p = a := by
    rw [ha]; exact dropWhile_dropWhile p s.data
  have h1 : b.dropWhile p = b := dropWhile_eq_self_of_prefix p hba haa
  have h2 : b.reverse.dropWhile p = b.reverse := by
    rw [hbrev]; exact dropWhile_dropWhile p a.reverse
  rw [h1, h2, List.reverse_reverse]

lemma head_dropWhile_false (p : Char → Bool) :
    ∀ (l : List Char) (a : Char), (l.dropWhile p).head? = some a → p a = false := by
  intro l
  induction l with
  | nil => intro a h; cases h
  | cons x t ih =>
    intro a h
    by_cases hx : p x
    · rw [List.dropWhile_cons, if_pos hx] at h
      exact ih a h
    · rw [List.dropWhile_cons, if_neg hx] at h
      cases h
      simpa using hx

lemma goTrimRightNl_decomp (s : String) :
    (∃ k, s.data = (goTrimRightNl s).data ++ List.replicate k '\n') ∧
    (goTrimRightNl s).data.getLast? ≠ some '\n' := by
  have hdata : (goTrimRightNl s).data
      = (s.data.reverse.dropWhile (fun c => c == '\n')).reverse := rfl
  set q : Char → Bool := fun c => c == '\n' with hq
  constructor
  · refine ⟨(s.data.reverse.takeWhile q).length, ?_⟩
    rw [hdata]
    have hrep : (s.data.reverse.takeWhile q).reverse
        = List.replicate (s.data.reverse.takeWhile q).length '\n' := by
      have hall : ∀ c ∈ s.data.reverse.takeWhile q, c = '\n' := by
        intro c hc
        have := List.mem_takeWhile_imp hc
        rwa [hq, beq_iff_eq] at this
      rw [List.eq_replicate_of_mem hall, List.reverse_replicate, List.length_replicate]
    calc s.data = s.data.reverse.reverse := (List.reverse_reverse _).symm
      _ = (s.data.reverse.takeWhile q ++ s.data.reverse.dropWhile q).reverse := by
          rw [List.takeWhile_append_dropWhile]
      _ = (s.data.reverse.dropWhile q).reverse ++ (s.data.reverse.takeWhile q).reverse := by
          rw [List.reverse_append]
      _ = (s.data.reverse.dropWhile q).reverse
            ++ List.replicate (s.data.reverse.takeWhile q).length '\n' := by rw [hrep]
  · rw [hdata, List.getLast?_reverse]
    intro hcon
    have := head_dropWhile_false q s.data.reverse '\n' hcon
    rw [hq] at this
    simp at this

def pairsFlat : List (String × String) → List (Author × String)
  | [] => []
  | p :: ps => (Author.operator, p.1) :: (Author.backend, p.2) :: pairsFlat ps

def optTail : Option String → List (Author × String)
  | none => []
  | some t => [(Author.operator, t)]

def Trimmed (t : String) : Prop := t ≠ "" ∧ goTrimSpace t = t

lemma goTrimSpace_trimmed (data : String) (h : goTrimSpace data ≠ "") :
    Trimmed (goTrimSpace data) :=
  ⟨h, goTrimSpace_idem data⟩

lemma runLoopG_decomp (chat) : ∀ (rs : List ReadRes) (st : GhostState),
    ∃ qs opt, ((runLoopG chat rs st).state).history
        = st.history ++ (pairsFlat qs ++ optTail opt) ∧
      (∀ q ∈ qs, Trimmed q.1) ∧ (∀ t ∈ opt, Trimmed t) := by
  intro rs
  induction rs with
  | nil =>
    intro st
    exact ⟨[], none, by simp [runLoopG_nil, Outcome.state, pairsFlat, optTail], by simp, by simp⟩
  | cons r rs ih =>
    intro st
    cases r with
    | fail e =>
      exact ⟨[], none, by simp [runLoopG_fail, Outcome.state, pairsFlat, optTail], by simp, by simp⟩
    | ok data =>
      by_cases h1 : data = ""
      · subst h1
        exact ⟨[], none, by simp [runLoopG_eof, Outcome.state, pairsFlat, optTail], by simp, by simp⟩
      · by_cases h2 : goTrimSpace data = ""
        · obtain ⟨qs, opt, hh, hqs, hopt⟩ := ih ⟨st.history, st.output,
            st.errout ++ "<user> " ++ goQuote data ++ "\n", st.calls⟩
          exact ⟨qs, opt, by rw [runLoopG_blank chat rs st data h1 h2]; exact hh, hqs, hopt⟩
        · cases hc : chat (eraseAuthors st.history ++ [goTrimSpace data]) with
          | error e =>
            refine ⟨[], some (goTrimSpace data), ?_, by simp, ?_⟩
            · rw [runLoopG_chat_err chat rs st data e h1 h2 hc]
              simp [Outcome.state, pairsFlat, optTail]
            · intro t ht
              cases ht
              exact goTrimSpace_trimmed data h2
          | ok next =>
            obtain ⟨qs, opt, hh, hqs, hopt⟩ := ih ⟨st.history
                ++ [(Author.operator, goTrimSpace data)] ++ [(Author.backend, next)],
              st.output ++ "\n<model> " ++ goTrimRightNl next ++ "\n\n",
              st.errout ++ "<user> ", st.calls + 1⟩
            refine ⟨(goTrimSpace data, next) :: qs, opt, ?_, ?_, hopt⟩
            · rw [runLoopG_chat_ok chat rs st data next h1 h2 hc, hh]
              simp [pairsFlat, List.append_assoc]
            · intro q hq
              rcases List.mem_cons.1 hq with hq | hq
              · rw [hq]
                exact goTrimSpace_trimmed data h2
              · exact hqs q hq

lemma chain_pairsFlat : ∀ (ps : List (String × String)) (x : String) (opt : Option String),
    List.Chain' (fun a b : Author × String => a.1 ≠ b.1)
      ((Author.backend, x) :: (pairsFlat ps ++ optTail opt)) := by
  intro ps
  induction ps with
  | nil =>
    intro x opt
    cases opt with
    | none => exact List.chain'_singleton _
    | some t =>
      rw [show pairsFlat [] ++ optTail (some t) = [(Author.operator, t)] from rfl]
      rw [List.chain'_cons]
      exact ⟨by simp, List.chain'_singleton _⟩
  | cons q qs ih =>
    intro x opt
    rw [show pairsFlat (q :: qs) ++ optTail opt
        = (Author.operator, q.1) :: (Author.backend, q.2) :: (pairsFlat qs ++ optTail opt) from by
      simp [pairsFlat]]
    rw [List.chain'_cons, List.chain'_cons]
    exact ⟨by simp, by simp, ih q.2 opt⟩

def Alternates (h : List (Author × String)) : Prop :=
  List.Chain' (fun a b => a.1 ≠ b.1) h

lemma mem_pairsFlat_operator : ∀ {qs : List (String × String)} {p : Author × String},
    p ∈ pairsFlat qs → p.1 = Author.operator → ∃ q ∈ qs, p.2 = q.1 := by
  intro qs
  induction qs with
  | nil => intro p hp _; cases hp
  | cons q qs ih =>
    intro p hp hop
    rcases hp with _ | ⟨_, hp⟩
    · exact ⟨q, List.mem_cons_self _ _, rfl⟩
    · rcases hp with _ | ⟨_, hp⟩
      · cases hop
      · obtain ⟨q', hq', hpq⟩ := ih hp hop
        exact ⟨q', List.mem_cons_of_mem _ hq', hpq⟩

lemma runLoop_hist_mono (chat) : ∀ (rs : List ReadRes) (st : SessionState),
    ∃ ext, ((runLoop chat rs st).state).history = st.history ++ ext := by
  intro rs
  induction rs with
  | nil => intro st; exact ⟨[], by simp [runLoop_nil, Outcome.state]⟩
  | cons r rs ih =>
    intro st
    cases r with
    | fail e => exact ⟨[], by simp [runLoop_fail, Outcome.state]⟩
    | ok data =>
      by_cases h1 : data = ""
      · subst h1; exact ⟨[], by simp [runLoop_eof, Outcome.state]⟩
      · by_cases h2 : goTrimSpace data = ""
        · obtain ⟨ext, hext⟩ := ih ⟨st.history, st.output,
            st.errout ++ "<user> " ++ goQuote data ++ "\n"⟩
          exact ⟨ext, by rw [runLoop_blank chat rs st data h1 h2]; exact hext⟩
        · cases hc : chat (st.history ++ [goTrimSpace data]) with
          | error e =>
            refine ⟨[goTrimSpace data], ?_⟩
            rw [runLoop_chat_err chat rs st data e h1 h2 hc]
            rfl
          | ok next =>
            obtain ⟨ext, hext⟩ := ih ⟨st.history ++ [goTrimSpace data] ++ [next],
              st.output ++ "\n<model> " ++ goTrimRightNl next ++ "\n\n",
              st.errout ++ "<user> "⟩
            refine ⟨[goTrimSpace data] ++ [next] ++ ext, ?_⟩
            rw [runLoop_chat_ok chat rs st data next h1 h2 hc, hext]
            simp [List.append_assoc]

lemma runLoop_exit (chat) : ∀ (rs : List ReadRes) (st : SessionState) (c : Nat)
    (fin : SessionState), runLoop chat rs st = .exited c fin →
    (c = 0 ∨ c = 1) ∧ (c = 0 → ∃ pre rest, rs = pre ++ ReadRes.ok "" :: rest) := by
  intro rs
  induction rs with
  | nil => intro st c fin h; rw [runLoop_nil] at h; cases h
  | cons r rs ih =>
    intro st c fin h
    cases r with
    | fail e =>
      rw [runLoop_fail] at h
      injection h with hc _
      subst hc
      exact ⟨Or.inr rfl, fun h0 => by cases h0⟩
    | ok data =>
      by_cases h1 : data = ""
      · subst h1
        rw [runLoop_eof] at h
        injection h with hc _
        subst hc
        exact ⟨Or.inl rfl, fun _ => ⟨[], rs, rfl⟩⟩
      · by_cases h2 : goTrimSpace data = ""
        · rw [runLoop_blank chat rs st data h1 h2] at h
          obtain ⟨hc01, hex⟩ := ih _ _ _ h
          refine ⟨hc01, fun h0 => ?_⟩
          obtain ⟨pre, rest, hpre⟩ := hex h0
          exact ⟨ReadRes.ok data :: pre, rest, by rw [hpre]; rfl⟩
        · cases hc : chat (st.history ++ [goTrimSpace data]) with
          | error e =>
            rw [runLoop_chat_err chat rs st data e h1 h2 hc] at h
            injection h with hcc _
            subst hcc
            exact ⟨Or.inr rfl, fun h0 => by cases h0⟩
          | ok next =>
            rw [runLoop_chat_ok chat rs st data next h1 h2 hc] at h
            obtain ⟨hc01, hex⟩ := ih _ _ _ h
            refine ⟨hc01, fun h0 => ?_⟩
            obtain ⟨pre, rest, hpre⟩ := hex h0
            exact ⟨ReadRes.ok data :: pre, rest, by rw [hpre]; rfl⟩

/-! The claims. -/

/-- C1: for every session, after the priming pair the transcript entries
strictly alternate operator-authored and backend-authored turns: the final
transcript is the tagged priming pair followed by complete
(operator, backend) pairs — one pair per iteration that reached the backend
and got a reply, plus at most one trailing operator turn when the session
died inside a backend call — no two consecutive entries share authorship,
and erasing the authorship tags gives exactly the plain loop's transcript. -/
theorem alternation_invariant (chat : List String → Except String String)
    (reads : List ReadRes) :
    Alternates (((runLoopG chat reads initG).state).history) ∧
    eraseAuthors (((runLoopG chat reads initG).state).history)
      = ((runLoop chat reads initState).state).history ∧
    ∃ qs opt, ((runLoopG chat reads initG).state).history
      = (Author.operator, prompt) :: (Author.backend, ack)
          :: (pairsFlat qs ++ optTail opt) := by
  obtain ⟨qs, opt, hh, _, _⟩ := runLoopG_decomp chat reads initG
  refine ⟨?_, ?_, qs, opt, ?_⟩
  · rw [hh]
    show Alternates ((Author.operator, prompt) :: (Author.backend, ack)
      :: (pairsFlat qs ++ optTail opt))
    rw [Alternates, List.chain'_cons]
    exact ⟨by simp, chain_pairsFlat qs ack opt⟩
  · have h := congrArg Outcome.state (proj_runLoopG chat reads initG)
    rw [projOutcome_state] at h
    exact congrArg SessionState.history h
  · rw [hh]; rfl

/-- C2: the backend-authored turn appended to the transcript is byte-identical
to the string the backend returned (the untrimmed `next` itself), even though
the copy printed on the primary output stream has its trailing newlines
stripped by `goTrimRightNl`: display trimming never alters stored history. -/
theorem append_fidelity (chat : List String → Except String String)
    (rs : List ReadRes) (st : SessionState) (data next : String)
    (h1 : data ≠ "") (h2 : goTrimSpace data ≠ "")
    (h3 : chat (st.history ++ [goTrimSpace data]) = Except.ok next) :
    runLoop chat (ReadRes.ok data :: rs) st =
      runLoop chat rs ⟨st.history ++ [goTrimSpace data] ++ [next],
        st.output ++ "\n<model> " ++ goTrimRightNl next ++ "\n\n",
        st.errout ++ "<user> "⟩ :=
  runLoop_chat_ok chat rs st data next h1 h2 h3

theorem append_fidelity_witness :
    ("x" : String) ≠ "" ∧ goTrimSpace "x" ≠ "" ∧
    runLoop (fun _ => Except.ok "hi\n") [ReadRes.ok "x"] ⟨[], "", ""⟩ =
      runLoop (fun _ => Except.ok "hi\n") [] ⟨[] ++ [goTrimSpace "x"] ++ ["hi\n"],
        "" ++ "\n<model> " ++ goTrimRightNl "hi\n" ++ "\n\n", "" ++ "<user> "⟩ :=
  ⟨by decide, by decide,
   append_fidelity (fun _ => Except.ok "hi\n") [] ⟨[], "", ""⟩ "x" "hi\n"
     (by decide) (by decide) rfl⟩

/-- C3: a read that is non-empty but trims to the empty string is rejected:
the transcript is unchanged, the backend-call counter is unchanged (the
backend is not invoked), the quoted raw bytes plus a newline are emitted on
the diagnostic stream, and the loop restarts on the remaining reads instead
of terminating. -/
theorem blank_input_idempotence (chat : List String → Except String String)
    (rs : List ReadRes) (st : GhostState) (data : String)
    (h1 : data ≠ "") (h2 : goTrimSpace data = "") :
    runLoopG chat (ReadRes.ok data :: rs) st =
      runLoopG chat rs ⟨st.history, st.output,
        st.errout ++ "<user> " ++ goQuote data ++ "\n", st.calls⟩ :=
  runLoopG_blank chat rs st data h1 h2

theorem blank_input_idempotence_witness :
    (" \n" : String) ≠ "" ∧ goTrimSpace " \n" = "" ∧
    runLoopG (fun _ => Except.ok "r") [ReadRes.ok " \n"] ⟨[], "", "", 0⟩ =
      runLoopG (fun _ => Except.ok "r") []
        ⟨[], "", "" ++ "<user> " ++ goQuote " \n" ++ "\n", 0⟩ :=
  ⟨by decide, by decide,
   blank_input_idempotence (fun _ => Except.ok "r") [] ⟨[], "", "", 0⟩ " \n"
     (by decide) (by decide)⟩

/-- C4: a zero-byte read terminates the session: exit status 0, transcript
and backend-call count unchanged, the remaining reads never examined (the
equation holds for every `rs` and every `chat`, so no further backend calls
happen); conversely every exit is 0 or 1, an exit with status 0 only happens
when some read produced zero bytes, and a startup failure exits 1 before the
loop. -/
theorem clean_termination (chat : List String → Except String String) :
    (∀ (rs : List ReadRes) (st : GhostState),
      runLoopG chat (ReadRes.ok "" :: rs) st =
        .exited 0 ⟨st.history, st.output, st.errout ++ "<user> ", st.calls⟩) ∧
    (∀ (rs : List ReadRes) (st : SessionState) (c : Nat) (fin : SessionState),
      runLoop chat rs st = .exited c fin →
        (c = 0 ∨ c = 1) ∧ (c = 0 → ∃ pre rest, rs = pre ++ ReadRes.ok "" :: rest)) ∧
    (∀ (e : String) (reads : List ReadRes),
      gabyMain (Except.error e) reads = .exited 1 ⟨[], "", fatalLog e⟩) :=
  ⟨fun rs st => runLoopG_eof chat rs st,
   fun rs st c fin h => runLoop_exit chat rs st c fin h,
   fun _ _ => rfl⟩

theorem clean_termination_witness :
    runLoopG (fun _ => Except.ok "r") [ReadRes.ok ""] ⟨[], "", "", 0⟩ =
      .exited 0 ⟨[], "", "" ++ "<user> ", 0⟩ ∧
    ((0 = 0 ∨ 0 = 1) ∧
      (0 = 0 → ∃ pre rest, [ReadRes.ok ""] = pre ++ ReadRes.ok "" :: rest)) :=
  ⟨(clean_termination (fun _ => Except.ok "r")).1 [] ⟨[], "", "", 0⟩,
   (clean_termination (fun _ => Except.ok "r")).2.1 [ReadRes.ok ""] ⟨[], "", ""⟩ 0
     ⟨[], "", "" ++ "<user> "⟩ rfl⟩

/-- C5: when the backend call fails, the session exits fatally with status 1,
nothing is printed on the primary output stream for that turn (`st.output` is
unchanged), and the transcript at exit retains the operator's trimmed turn
but gains no backend reply. -/
theorem backend_error_fatal (chat : List String → Except String String)
    (rs : List ReadRes) (st : GhostState) (data e : String)
    (h1 : data ≠ "") (h2 : goTrimSpace data ≠ "")
    (h3 : chat (eraseAuthors st.history ++ [goTrimSpace data]) = Except.error e) :
    runLoopG chat (ReadRes.ok data :: rs) st =
      .exited 1 ⟨st.history ++ [(Author.operator, goTrimSpace data)], st.output,
                 st.errout ++ "<user> " ++ fatalLog e, st.calls + 1⟩ :=
  runLoopG_chat_err chat rs st data e h1 h2 h3

theorem backend_error_fatal_witness :
    ("x" : String) ≠ "" ∧ goTrimSpace "x" ≠ "" ∧
    runLoopG (fun _ => Except.error "boom") [ReadRes.ok "x"] ⟨[], "", "", 0⟩ =
      .exited 1 ⟨[] ++ [(Author.operator, goTrimSpace "x")], "",
                 "" ++ "<user> " ++ fatalLog "boom", 0 + 1⟩ :=
  ⟨by decide, by decide,
   backend_error_fatal (fun _ => Except.error "boom") [] ⟨[], "", "", 0⟩ "x" "boom"
     (by decide) (by decide) rfl⟩

/-- C6: before any operator input is read the transcript is exactly
`[prompt, ack]`, and these two entries remain the first two transcript
entries at every end of a run, whatever the reads and the backend do. -/
theorem priming_invariant :
    initState.history = [prompt, ack] ∧
    ∀ (chat : List String → Except String String) (reads : List ReadRes),
      ∃ rest, ((runLoop chat reads initState).state).history = prompt :: ack :: rest := by
  refine ⟨rfl, fun chat reads => ?_⟩
  obtain ⟨ext, hext⟩ := runLoop_hist_mono chat reads initState
  exact ⟨ext, by rw [hext]; rfl⟩

/-- C7: for a successful backend reply `next`, the bytes written on the
primary output stream for that turn are exactly `"\n<model> "`, then `next`
with only trailing newline characters removed, then `"\n\n"`; the trimming
removes nothing but trailing `'\n'` characters (`next` is the trimmed text
plus a run of newlines) and removes all of them (the trimmed text does not
end in `'\n'`). -/
theorem display_framing (next : String) :
    (∀ (chat : List String → Except String String) (rs : List ReadRes)
      (st : SessionState) (data : String),
      data ≠ "" → goTrimSpace data ≠ "" →
      chat (st.history ++ [goTrimSpace data]) = Except.ok next →
      runLoop chat (ReadRes.ok data :: rs) st =
        runLoop chat rs ⟨st.history ++ [goTrimSpace data] ++ [next],
          st.output ++ ("\n<model> " ++ goTrimRightNl next ++ "\n\n"),
          st.errout ++ "<user> "⟩) ∧
    (∃ k, next.data = (goTrimRightNl next).data ++ List.replicate k '\n') ∧
    (goTrimRightNl next).data.getLast? ≠ some '\n' := by
  refine ⟨?_, (goTrimRightNl_decomp next).1, (goTrimRightNl_decomp next).2⟩
  intro chat rs st data h1 h2 h3
  rw [runLoop_chat_ok chat rs st data next h1 h2 h3]
  congr 1
  simp [String.append_assoc]

theorem display_framing_witness :
    runLoop (fun _ => Except.ok "ok\n") [ReadRes.ok "q"] ⟨[], "", ""⟩ =
      runLoop (fun _ => Except.ok "ok\n") [] ⟨[] ++ [goTrimSpace "q"] ++ ["ok\n"],
        "" ++ ("\n<model> " ++ goTrimRightNl "ok\n" ++ "\n\n"), "" ++ "<user> "⟩ ∧
    (∃ k, ("ok\n" : String).data = (goTrimRightNl "ok\n").data ++ List.replicate k '\n') ∧
    (goTrimRightNl "ok\n").data.getLast? ≠ some '\n' :=
  ⟨(display_framing "ok\n").1 (fun _ => Except.ok "ok\n") [] ⟨[], "", ""⟩ "q"
     (by decide) (by decide) rfl,
   (display_framing "ok\n").2.1, (display_framing "ok\n").2.2⟩

/-- C9: every operator-authored transcript entry after the priming pair is
non-empty and is a fixed point of `goTrimSpace` (it carries no leading or
trailing whitespace), so no whitespace-only string ever enters the
transcript as an operator turn. -/
theorem operator_turns_trimmed (chat : List String → Except String String)
    (reads : List ReadRes) :
    ∀ p ∈ (((runLoopG chat reads initG).state).history).drop 2,
      p.1 = Author.operator → p.2 ≠ "" ∧ goTrimSpace p.2 = p.2 := by
  obtain ⟨qs, opt, hh, hqs, hopt⟩ := runLoopG_decomp chat reads initG
  intro p hp hop
  rw [hh] at hp
  have hdrop : ((initG.history ++ (pairsFlat qs ++ optTail opt)).drop 2)
      = pairsFlat qs ++ optTail opt := rfl
  rw [hdrop] at hp
  rcases List.mem_append.1 hp with hmem | hmem
  · obtain ⟨q, hq, hpq⟩ := mem_pairsFlat_operator hmem hop
    rw [hpq]
    exact hqs q hq
  · cases opt with
    | none => cases hmem
    | some t =>
      have : p = (Author.operator, t) := by
        rcases List.mem_singleton.1 hmem with h
        exact h
      rw [this]
      exact hopt t rfl

theorem operator_turns_trimmed_witness :
    (Author.operator, "hi")
        ∈ (((runLoopG (fun _ => Except.ok "y") [ReadRes.ok " hi "] initG).state).history).drop 2 ∧
    (Author.operator, "hi").1 = Author.operator ∧
    (("hi" : String) ≠ "" ∧ goTrimSpace "hi" = "hi") :=
  ⟨by decide, rfl,
   operator_turns_trimmed (fun _ => Except.ok "y") [ReadRes.ok " hi "]
     (Author.operator, "hi") (by decide) rfl⟩

/-- C10: the session loop is deterministic: for a fixed list of read results
and backend reply functions that agree on every transcript, the runs are
identical — same final transcript, same primary-output bytes, same
diagnostic-stream bytes (the whole outcome coincides). -/
theorem session_deterministic (chat1 chat2 : List String → Except String String)
    (hext : ∀ h, chat1 h = chat2 h) :
    ∀ (reads : List ReadRes) (st : SessionState),
      runLoop chat1 reads st = runLoop chat2 reads st := by
  intro reads
  induction reads with
  | nil => intro st; rfl
  | cons r rs ih =>
    intro st
    cases r with
    | fail e => rfl
    | ok data =>
      by_cases h1 : data = ""
      · subst h1; rfl
      · by_cases h2 : goTrimSpace data = ""
        · rw [runLoop_blank chat1 rs st data h1 h2, runLoop_blank chat2 rs st data h1 h2]
          exact ih _
        · cases hc : chat1 (st.history ++ [goTrimSpace data]) with
          | error e =>
            rw [runLoop_chat_err chat1 rs st data e h1 h2 hc,
                runLoop_chat_err chat2 rs st data e h1 h2 (by rw [← hext]; exact hc)]
          | ok next =>
            rw [runLoop_chat_ok chat1 rs st data next h1 h2 hc,
                runLoop_chat_ok chat2 rs st data next h1 h2 (by rw [← hext]; exact hc)]
            exact ih _

theorem session_deterministic_witness :
    (∀ h : List String,
      (fun _ : List String => (Except.ok "a" : Except String String)) h
        = (fun _ : List String => (Except.ok ((fun s : String => s) "a") : Except String String)) h) ∧
    runLoop (fun _ : List String => (Except.ok "a" : Except String String))
        [ReadRes.ok "x"] ⟨[], "", ""⟩ =
      runLoop (fun _ : List String => (Except.ok ((fun s : String => s) "a") : Except String String))
        [ReadRes.ok "x"] ⟨[], "", ""⟩ :=
  ⟨fun _ => rfl,
   session_deterministic _ _ (fun _ => rfl) [ReadRes.ok "x"] ⟨[], "", ""⟩⟩

set_option maxRecDepth 40000 in
/-- C8: refuted on the code, which contradicts its own comment: in the prompt
constant the method list declares `func (issue *Issue) AddLabel(labelName
string)` twice — the second occurrence sits right under the doc comment for
RemoveLabel — and no line of the prompt contains `RemoveLabel(`, so no
RemoveLabel declaration is presented, while SetTitle, IsNearlyIdentical and
CloseAsDuplicate each get their one declaration. -/
theorem removeLabel_declaration_missing :
    prompt = String.intercalate "\n" promptLines ∧
    promptLines.count "\tfunc (issue *Issue) AddLabel(labelName string)" = 2 ∧
    promptLines.count
      "\t// RemoveLabel removes the label with the given labelName from the issue." = 1 ∧
    promptLines.all (fun l => countOcc "RemoveLabel(".data l.data == 0) = true ∧
    promptLines.count "\tfunc (issue *Issue) SetTitle(newIssueTitle string)" = 1 ∧
    promptLines.count "\tfunc (issue *Issue) IsNearlyIdentical(number int) bool" = 1 ∧
    promptLines.count "\tfunc (issue *Issue) CloseAsDuplicate(number int) bool" = 1 :=
  ⟨rfl, by decide, by decide, by decide, by decide, by decide, by decide⟩

end Gabychat
